import Mathlib

/-!
Shallow embedding of the kernel repository (boot/driver layer of a minimal
bare-metal kernel) and proofs about its I/O adapters, register protocols and
boot orchestration.

Rust mutable-state functions are embedded as explicit state-passing Lean
functions.  A reader (Rust trait Read) is a state machine: reading with a
buffer of length n returns either an error or the list of bytes produced
(at most n for a well-behaved reader), together with the updated state.
Bytes are modelled as Nat; u64 / u32 register values are modelled as Nat,
with truncation noted where the source relies on the machine width.
MMIO register traffic is modelled by a register-file record plus an explicit
trace of write / spin events, so that ordering claims can be stated.
-/

set_option autoImplicit false

namespace kernel.io

/-- A reader state machine: embedding of the Rust trait Read from
src/kernel/io/read.rs.  The state σ stands for the &mut self receiver;
read s n models read(&mut self, buf) with buf.len() = n, result .ok bs
models Ok(bs.length) with bytes bs written into buf, and the state is
updated whether or not the call fails (as the Rust &mut self is). -/
structure Reader (σ ε : Type) where
  read : σ → Nat → Except ε (List Nat) × σ

/-- The Read contract from the spec: read must produce at most buf.len bytes. -/
def Reader.WellBehaved {σ ε : Type} (r : Reader σ ε) : Prop :=
  ∀ s n bs s', r.read s n = (.ok bs, s') → bs.length ≤ n

/-- A writer state machine: embedding of the Rust trait Write from
src/kernel/io/write.rs.  write s buf models write(&mut self, buf); result
.ok n means n bytes of buf were consumed. -/
structure Writer (σ ε : Type) where
  write : σ → List Nat → Except ε Nat × σ

/-- The Take adapter struct from src/kernel/io/take.rs: inner reader state
plus the remaining byte budget (limit : u64, modelled as Nat: it only
ever decreases). -/
structure Take (σ : Type) where
  inner : σ
  limit : Nat

/-- Take::new from src/kernel/io/take.rs. -/
def Take.new {σ : Type} (inner : σ) (limit : Nat) : Take σ :=
  ⟨inner, limit⟩

/-- Take::read from src/kernel/io/take.rs lines 25-34:
if limit == 0 return Ok(0); clamp the buffer to min(buf.len, limit);
read from inner (errors propagate via the question mark, leaving limit
unchanged); on success subtract the produced count from limit. -/
def Take.read {σ ε : Type} (r : Reader σ ε) (t : Take σ) (buflen : Nat) :
    Except ε (List Nat) × Take σ :=
  if t.limit = 0 then (.ok [], t)
  else
    let max := min buflen t.limit
    match r.read t.inner max with
    | (.ok bs, s') => (.ok bs, ⟨s', t.limit - bs.length⟩)
    | (.error e, s') => (.error e, ⟨s', t.limit⟩)

/-- A sequence of Take::read calls with the given buffer lengths; returns the
total number of bytes produced across the sequence (failed calls produce
none) and the final adapter state. -/
def runTake {σ ε : Type} (r : Reader σ ε) (t : Take σ) : List Nat → Nat × Take σ
  | [] => (0, t)
  | b :: bs =>
    let step := Take.read r t b
    let n := match step.1 with
      | .ok l => l.length
      | .error _ => 0
    let rest := runTake r step.2 bs
    (n + rest.1, rest.2)

/-- The Chain adapter struct from src/kernel/io/chain.rs: the two inner
reader states and the done_first flag. -/
structure Chain (σ₁ σ₂ : Type) where
  first : σ₁
  second : σ₂
  done_first : Bool

/-- Chain::new from src/kernel/io/chain.rs: done_first starts false. -/
def Chain.new {σ₁ σ₂ : Type} (first : σ₁) (second : σ₂) : Chain σ₁ σ₂ :=
  ⟨first, second, false⟩

/-- Chain::read from src/kernel/io/chain.rs lines 27-35:
if !done_first, read first (errors propagate converted by f1, the From
impl); 0 bytes sets done_first and falls through to second; n > 0 bytes
return at once.  Once done_first, read only second, converting its error
by f2 (the map_err(From::from)). -/
def Chain.read {σ₁ σ₂ ε₁ ε₂ ε : Type} (r1 : Reader σ₁ ε₁) (r2 : Reader σ₂ ε₂)
    (f1 : ε₁ → ε) (f2 : ε₂ → ε) (c : Chain σ₁ σ₂) (buflen : Nat) :
    Except ε (List Nat) × Chain σ₁ σ₂ :=
  if c.done_first then
    let step := r2.read c.second buflen
    (step.1.mapError f2, ⟨c.first, step.2, c.done_first⟩)
  else
    match r1.read c.first buflen with
    | (.error e, s1') => (.error (f1 e), ⟨s1', c.second, false⟩)
    | (.ok [], s1') =>
      let step := r2.read c.second buflen
      (step.1.mapError f2, ⟨s1', step.2, true⟩)
    | (.ok bs, s1') => (.ok bs, ⟨s1', c.second, false⟩)

/-- A sequence of Chain::read calls with the given buffer lengths; returns
the final adapter state. -/
def runChain {σ₁ σ₂ ε₁ ε₂ ε : Type} (r1 : Reader σ₁ ε₁) (r2 : Reader σ₂ ε₂)
    (f1 : ε₁ → ε) (f2 : ε₂ → ε) (c : Chain σ₁ σ₂) : List Nat → Chain σ₁ σ₂
  | [] => c
  | b :: bs => runChain r1 r2 f1 f2 (Chain.read r1 r2 f1 f2 c b).2 bs

/-- The zero-payload EndOfFile marker from src/kernel/io.rs. -/
structure EndOfFile where

/-- Read::read_exact from src/kernel/io/read.rs lines 8-22, embedded over
remaining buffer length.  The caller-chosen error type E receives the
source error through fE (the From impl for Self::Err) and End-of-file
through eof = From::from(EndOfFile).  On success the returned list is the
sequence of bytes the loop deposited in buf.  The Rust loop terminates
because a read of 0 aborts and a read of n > 0 strictly shrinks buf. -/
def read_exact {σ ε E : Type} (r : Reader σ ε) (fE : ε → E) (eof : E)
    (s : σ) (remaining : Nat) : Except E (List Nat × σ) :=
  if h : remaining = 0 then .ok ([], s)
  else
    match r.read s remaining with
    | (.error e, _) => .error (fE e)
    | (.ok bs, s') =>
      if h2 : bs.length = 0 then .error eof
      else
        match read_exact r fE eof s' (remaining - bs.length) with
        | .ok (rest, sf) => .ok (bs ++ rest, sf)
        | .error e => .error e
termination_by remaining
decreasing_by omega

/-- Write::write_all from src/kernel/io/write.rs lines 9-20: repeatedly
write the remaining suffix; a write of 0 progress fails with the converted
EndOfFile, a native error propagates through fE; Ok once buf is empty. -/
def write_all {σ ε E : Type} (w : Writer σ ε) (fE : ε → E) (eof : E)
    (s : σ) (buf : List Nat) : Except E σ :=
  if h : buf.length = 0 then .ok s
  else
    match w.write s buf with
    | (.error e, _) => .error (fE e)
    | (.ok n, s') =>
      if h2 : n = 0 then .error eof
      else write_all w fE eof s' (buf.drop n)
termination_by buf.length
decreasing_by simp; omega

/-- Instrumentation used to observe which bytes write_all hands to the
underlying writer: wraps a writer so that each successful write(buf)
consuming n bytes appends buf.take n to a log. -/
def logWriter {σ ε : Type} (w : Writer σ ε) : Writer (σ × List (List Nat)) ε :=
  ⟨fun sl buf =>
    match w.write sl.1 buf with
    | (.ok n, s') => (.ok n, (s', sl.2 ++ [buf.take n]))
    | (.error e, s') => (.error e, (s', sl.2))⟩

/-- The Adaptor shim inside Write::write_fmt (src/kernel/io/write.rs lines
28-47): holds the writer state (inner : &mut T) and the captured I/O
error (result). -/
structure Adaptor (σ E : Type) where
  inner : σ
  result : Except E Unit

/-- Adaptor::write_str from src/kernel/io/write.rs lines 38-46: forward the
fragment via write_all; on error save it into result and report fmt::Error
(the Bool is true for Ok(()) and false for Err(fmt::Error)). -/
def Adaptor.write_str {σ ε E : Type} (w : Writer σ ε) (fE : ε → E) (eof : E)
    (a : Adaptor σ E) (s : List Nat) : Adaptor σ E × Bool :=
  match write_all w fE eof a.inner s with
  | .ok s' => ({ a with inner := s' }, true)
  | .error e => ({ a with result := .error e }, false)

/-- The fmt::write engine as seen by write_fmt: the formatting machinery
produces a sequence of string fragments and feeds each to write_str,
stopping at the first fmt::Error. -/
def fmtWrite {σ ε E : Type} (w : Writer σ ε) (fE : ε → E) (eof : E) :
    Adaptor σ E → List (List Nat) → Adaptor σ E × Bool
  | a, [] => (a, true)
  | a, f :: fs =>
    match Adaptor.write_str w fE eof a f with
    | (a', true) => fmtWrite w fE eof a' fs
    | (a', false) => (a', false)

/-- Write::write_fmt from src/kernel/io/write.rs lines 22-65: run the
formatting process through the Adaptor (result starts Ok(())); on fmt
success return Ok; on fmt failure return output.result — the source
returns output.result in both the is_err and the else branch. -/
def write_fmt {σ ε E : Type} (w : Writer σ ε) (fE : ε → E) (eof : E)
    (s : σ) (frags : List (List Nat)) : Except E Unit :=
  match fmtWrite w fE eof ⟨s, .ok ()⟩ frags with
  | (_, true) => .ok ()
  | (a, false) =>
    match a.result with
    | .error e => .error e
    | .ok _ => .ok ()

/-- A concrete reader over trivial state producing one byte (7) per call,
used to instantiate the adapter theorems. -/
def oneByteReader : Reader Unit Unit :=
  ⟨fun s n => (.ok (List.replicate (min n 1) 7), s)⟩

/-- A concrete reader that always reports 0 bytes. -/
def emptyReader : Reader Unit Unit :=
  ⟨fun s _ => (.ok [], s)⟩

/-- A concrete writer that consumes one byte per call. -/
def oneByteWriter : Writer Unit Unit :=
  ⟨fun s buf => (.ok (min buf.length 1), s)⟩

/-- A concrete writer that reports zero progress. -/
def stuckWriter : Writer Unit Unit :=
  ⟨fun s _ => (.ok 0, s)⟩

/-- A concrete writer that always fails. -/
def failWriter : Writer Unit Unit :=
  ⟨fun s _ => (.error (), s)⟩

end kernel.io

namespace kernel

/-- Modelled from the spec: src/kernel/result.rs is not in the sources; the
spec describes peripheral-specific opaque error kinds returned by
Driver::init, so KernelError is an opaque marker type. -/
inductive KernelError : Type where
  | peripheral : KernelError
deriving DecidableEq

/-- KernelResult, the result type of Driver::init. -/
def KernelResult : Type := Except KernelError Unit

end kernel

namespace bsp

/-- The three GPIO registers touched by GPIO::map_pl011_uart
(src/bsp/gpio.rs register_structs lines 53-68; the other slots of the
block are never accessed by the code under verification). -/
inductive GpioReg : Type where
  | GPFSEL1 : GpioReg
  | GPPUD : GpioReg
  | GPPUDCLK0 : GpioReg
deriving DecidableEq

/-- One observable MMIO action of the GPIO driver: a register write of a
32-bit value, or a spin_for_cycles delay. -/
inductive GpioEvent : Type where
  | write : GpioReg → Nat → GpioEvent
  | spin : Nat → GpioEvent
deriving DecidableEq

/-- The GPIO register file (u32 values as Nat < 2^32). -/
structure GpioRegisterBlock where
  GPFSEL1 : Nat
  GPPUD : Nat
  GPPUDCLK0 : Nat
deriving DecidableEq

/-- A volatile register write: stores the value truncated to u32 and logs
the write event. -/
def gpioWrite (st : GpioRegisterBlock × List GpioEvent) (r : GpioReg) (v : Nat) :
    GpioRegisterBlock × List GpioEvent :=
  let g := st.1
  let g' := match r with
    | .GPFSEL1 => { g with GPFSEL1 := v % 4294967296 }
    | .GPPUD => { g with GPPUD := v % 4294967296 }
    | .GPPUDCLK0 => { g with GPPUDCLK0 := v % 4294967296 }
  (g', st.2 ++ [.write r v])

/-- bsp::spin_for_cycles (src/bsp.rs lines 30-34): c nop iterations,
recorded as a spin event. -/
def spin_for_cycles (st : GpioRegisterBlock × List GpioEvent) (c : Nat) :
    GpioRegisterBlock × List GpioEvent :=
  (st.1, st.2 ++ [.spin c])

/-- GPFSEL1 field constants: FSEL14 is OFFSET(12) NUMBITS(3) and FSEL15 is
OFFSET(15) NUMBITS(3) (src/bsp/gpio.rs lines 20-35), so a modify of both
fields clears bits 12-17 and AltFunc0 = 0b100 writes 0b100 << 12 and
0b100 << 15.  Mask of bits 12-17: 0x3F000; AltFunc0 in both: 0x24000. -/
def gpfsel1_uart_value (old : Nat) : Nat :=
  (old &&& (0xFFFFFFFF ^^^ 0x3F000)) ||| 0x24000

/-- PUDCLK14 (bit 14) and PUDCLK15 (bit 15) AssertClock
(src/bsp/gpio.rs lines 38-50): (1 << 14) ||| (1 << 15). -/
def gppudclk0_assert_value : Nat := 0xC000

/-- GPIO::map_pl011_uart from src/bsp/gpio.rs lines 78-95:
1. GPFSEL1.modify(FSEL14::AltFunc0 + FSEL15::AltFunc0) — a read-modify-write;
2. GPPUD.set(0);
3. spin_for_cycles(150);
4. GPPUDCLK0.write(PUDCLK14::AssertClock + PUDCLK15::AssertClock);
5. spin_for_cycles(150);
6. GPPUDCLK0.set(0). -/
def map_pl011_uart (g : GpioRegisterBlock) : GpioRegisterBlock × List GpioEvent :=
  let st0 := (g, ([] : List GpioEvent))
  let st1 := gpioWrite st0 .GPFSEL1 (gpfsel1_uart_value st0.1.GPFSEL1)
  let st2 := gpioWrite st1 .GPPUD 0
  let st3 := spin_for_cycles st2 150
  let st4 := gpioWrite st3 .GPPUDCLK0 gppudclk0_assert_value
  let st5 := spin_for_cycles st4 150
  gpioWrite st5 .GPPUDCLK0 0

/-- The PL011 UART registers written by PL011Uart::init
(src/bsp/uart.rs register_structs lines 146-161). -/
inductive UartReg : Type where
  | DR : UartReg
  | IBRD : UartReg
  | FBRD : UartReg
  | LCRH : UartReg
  | CR : UartReg
  | ICR : UartReg
deriving DecidableEq

/-- One observable MMIO write of the UART driver. -/
inductive UartEvent : Type where
  | write : UartReg → Nat → UartEvent
deriving DecidableEq

/-- The UART register file (u32 values as Nat < 2^32; FR is read-only and
not written by init, so it is omitted from the written state). -/
structure UartRegisterBlock where
  DR : Nat
  IBRD : Nat
  FBRD : Nat
  LCRH : Nat
  CR : Nat
  ICR : Nat
deriving DecidableEq

/-- A volatile UART register write with trace. -/
def uartWrite (st : UartRegisterBlock × List UartEvent) (r : UartReg) (v : Nat) :
    UartRegisterBlock × List UartEvent :=
  let u := st.1
  let u' := match r with
    | .DR => { u with DR := v % 4294967296 }
    | .IBRD => { u with IBRD := v % 4294967296 }
    | .FBRD => { u with FBRD := v % 4294967296 }
    | .LCRH => { u with LCRH := v % 4294967296 }
    | .CR => { u with CR := v % 4294967296 }
    | .ICR => { u with ICR := v % 4294967296 }
  (u', st.2 ++ [.write r v])

/-- LCRH::WLEN::EightBit (0b11 at OFFSET 5) + LCRH::FEN::FifosEnabled
(1 at OFFSET 4) from src/bsp/uart.rs lines 90-110. -/
def lcrh_init_value : Nat := 0x70

/-- CR::UARTEN::Enabled (bit 0) + CR::TXE::Enabled (bit 8) +
CR::RXE::Enabled (bit 9) from src/bsp/uart.rs lines 112-137. -/
def cr_enable_value : Nat := 0x301

/-- PL011Uart::init from src/bsp/uart.rs lines 189-207:
CR.set(0); ICR.write(ICR::ALL::CLEAR) (= 0); IBRD.write(13); FBRD.write(2);
LCRH.write(WLEN::EightBit + FEN::FifosEnabled); CR.write(UARTEN + TXE +
RXE); returns Ok(()). -/
def PL011Uart.init (u : UartRegisterBlock) :
    kernel.KernelResult × UartRegisterBlock × List UartEvent :=
  let st0 := (u, ([] : List UartEvent))
  let st1 := uartWrite st0 .CR 0
  let st2 := uartWrite st1 .ICR 0
  let st3 := uartWrite st2 .IBRD 13
  let st4 := uartWrite st3 .FBRD 2
  let st5 := uartWrite st4 .LCRH lcrh_init_value
  let st6 := uartWrite st5 .CR cr_enable_value
  (.ok (), st6)

end bsp

namespace kernel

/-- One entry of the driver registry as the boot orchestrator sees it: the
Driver trait objects of src/kernel/driver.rs expose name() and init(); the
outcome of init() on this boot is its Except value. -/
structure DriverSpec where
  name : String
  initResult : KernelResult

/-- The driver-registry loop of kernel::init (src/kernel.rs lines 8-12):
the first failing driver aborts the boot with its name (the panic), and
drivers after it are not initialized. -/
def initDrivers : List DriverSpec → Except String Unit
  | [] => .ok ()
  | d :: ds =>
    match d.initResult with
    | .error _ => .error d.name
    | .ok _ => initDrivers ds

/-- The observable fate of a boot. -/
inductive BootOutcome : Type where
  | halted : String → BootOutcome
  | enteredMainLoop : BootOutcome
deriving DecidableEq

/-- kernel::init from src/kernel.rs lines 7-16, with the GPIO register
traffic it causes as the observable trace: iterate the driver registry;
on the first failure panic (halt forever) reporting the driver name,
before bsp::post_init — so no GPIO pin-mux write is ever issued; otherwise
run bsp::post_init (which is GPIO.map_pl011_uart, src/bsp.rs lines 21-23)
and fall into kernel_main. -/
def init (g : bsp.GpioRegisterBlock) (drivers : List DriverSpec) :
    BootOutcome × List bsp.GpioEvent :=
  match initDrivers drivers with
  | .error n => (.halted n, [])
  | .ok _ => (.enteredMainLoop, (bsp.map_pl011_uart g).2)

/-- The first loop of kernel_main (src/kernel.rs lines 22-27): read single
bytes from the console and discard them until a newline (10) arrives;
returns the input remaining after the newline, or none when the input is
exhausted first (the blocking read never returns: no further output). -/
def wait_for_enter : List Nat → Option (List Nat)
  | [] => none
  | b :: rest => if b = 10 then some rest else wait_for_enter rest

/-- The echo loop of kernel_main (src/kernel.rs lines 30-33): read one byte,
write it back, forever; with a finite input stream it echoes every
remaining byte in order and then blocks. -/
def echo : List Nat → List Nat
  | [] => []
  | b :: rest => b :: echo rest

/-- kernel_main from src/kernel.rs lines 18-34 over a simulated console
input byte stream: the bytes written back to the console. -/
def kernel_main (input : List Nat) : List Nat :=
  match wait_for_enter input with
  | none => []
  | some rest => echo rest

end kernel

/-! ## Theorems -/

/-- Claim C7: for the console input byte stream "hello\n world"
(h,e,l,l,o,newline,space,w,o,r,l,d), the main loop writes back exactly the
bytes " world": everything up to and including the first newline is
consumed without being echoed, everything after it is echoed verbatim. -/
theorem kernel_main_echo_after_newline :
    kernel.kernel_main [104, 101, 108, 108, 111, 10, 32, 119, 111, 114, 108, 100]
      = [32, 119, 111, 114, 108, 100] := by
  decide

/-- Claim C5: after PL011Uart::init returns Ok, the control register has the
UART-enable (bit 0), TX-enable (bit 8) and RX-enable (bit 9) bits set, the
line-control register has 8-bit word length (WLEN, bits 5-6 = 0b11) and
FIFO enable (bit 4) set, the baud divisors hold 13 and 2, and the writes
happen in the order CR := 0, ICR, IBRD, FBRD, LCRH, CR-enable. -/
theorem pl011_init_register_spec (u : bsp.UartRegisterBlock) :
    (bsp.PL011Uart.init u).1 = .ok () ∧
    (bsp.PL011Uart.init u).2.1.CR.testBit 0 = true ∧
    (bsp.PL011Uart.init u).2.1.CR.testBit 8 = true ∧
    (bsp.PL011Uart.init u).2.1.CR.testBit 9 = true ∧
    (bsp.PL011Uart.init u).2.1.LCRH / 32 % 4 = 3 ∧
    (bsp.PL011Uart.init u).2.1.LCRH.testBit 4 = true ∧
    (bsp.PL011Uart.init u).2.1.IBRD = 13 ∧
    (bsp.PL011Uart.init u).2.1.FBRD = 2 ∧
    (bsp.PL011Uart.init u).2.2 =
      [.write .CR 0, .write .ICR 0, .write .IBRD 13, .write .FBRD 2,
       .write .LCRH bsp.lcrh_init_value, .write .CR bsp.cr_enable_value] := by
  have hCR : (bsp.PL011Uart.init u).2.1.CR = 769 := rfl
  have hLCRH : (bsp.PL011Uart.init u).2.1.LCRH = 112 := rfl
  refine ⟨rfl, ?_, ?_, ?_, ?_, ?_, rfl, rfl, rfl⟩ <;> simp only [hCR, hLCRH] <;> decide

/-- Claim C4: map_pl011_uart issues exactly this sequence of register
accesses, in order, with nothing else: the combined FSEL14+FSEL15
function-select write (whose value sets both 3-bit fields to AltFunc0 =
0b100, i.e. bits 14 and 17 set, bits 12, 13, 15, 16 cleared), a 0 write to
GPPUD, a busy-wait of at least 150 cycles, the PUDCLK14+PUDCLK15 assert
write, another busy-wait of at least 150 cycles, and a 0 write to
GPPUDCLK0. -/
theorem map_pl011_uart_trace_spec (g : bsp.GpioRegisterBlock) :
    ∃ c1 c2, 150 ≤ c1 ∧ 150 ≤ c2 ∧
      (bsp.map_pl011_uart g).2 =
        [.write .GPFSEL1 (bsp.gpfsel1_uart_value g.GPFSEL1),
         .write .GPPUD 0, .spin c1,
         .write .GPPUDCLK0 bsp.gppudclk0_assert_value, .spin c2,
         .write .GPPUDCLK0 0] ∧
      (bsp.gpfsel1_uart_value g.GPFSEL1).testBit 12 = false ∧
      (bsp.gpfsel1_uart_value g.GPFSEL1).testBit 13 = false ∧
      (bsp.gpfsel1_uart_value g.GPFSEL1).testBit 14 = true ∧
      (bsp.gpfsel1_uart_value g.GPFSEL1).testBit 15 = false ∧
      (bsp.gpfsel1_uart_value g.GPFSEL1).testBit 16 = false ∧
      (bsp.gpfsel1_uart_value g.GPFSEL1).testBit 17 = true := by
  refine ⟨150, 150, by omega, by omega, rfl, ?_, ?_, ?_, ?_, ?_, ?_⟩ <;>
    (unfold bsp.gpfsel1_uart_value
     simp only [Nat.testBit_lor, Nat.testBit_land]
     generalize g.GPFSEL1.testBit _ = b
     revert b
     decide)

/-- Claim C9: map_pl011_uart performs a read-modify-write on GPFSEL1 that
touches only the FSEL14/FSEL15 fields (bits 12-17): every other bit of
GPFSEL1 has the same value after the call as before it. -/
theorem map_pl011_uart_gpfsel1_frame (g : bsp.GpioRegisterBlock) (i : Nat)
    (hi : i < 32) (h : ¬(12 ≤ i ∧ i ≤ 17)) :
    ((bsp.map_pl011_uart g).1.GPFSEL1).testBit i = g.GPFSEL1.testBit i := by
  have hv : (bsp.map_pl011_uart g).1.GPFSEL1
      = bsp.gpfsel1_uart_value g.GPFSEL1 % 4294967296 := rfl
  rw [hv, show (4294967296 : Nat) = 2 ^ 32 from rfl, Nat.testBit_mod_two_pow]
  simp [hi]
  unfold bsp.gpfsel1_uart_value
  simp only [Nat.testBit_lor, Nat.testBit_land]
  interval_cases i <;> simp_all <;>
    (generalize g.GPFSEL1.testBit _ = b; revert b; decide)

/-- Witness for map_pl011_uart_gpfsel1_frame at a concrete register value
and bit index. -/
theorem map_pl011_uart_gpfsel1_frame_witness :
    ((bsp.map_pl011_uart ⟨4294967295, 0, 0⟩).1.GPFSEL1).testBit 5
      = (4294967295 : Nat).testBit 5 :=
  map_pl011_uart_gpfsel1_frame ⟨4294967295, 0, 0⟩ 5 (by decide) (by decide)

/-- The driver-registry loop reports the name of the first failing driver
when everything before it succeeds. -/
lemma initDrivers_first_failure (ds1 ds2 : List kernel.DriverSpec)
    (d : kernel.DriverSpec) (e : kernel.KernelError)
    (h1 : ∀ d' ∈ ds1, d'.initResult = .ok ())
    (h2 : d.initResult = .error e) :
    kernel.initDrivers (ds1 ++ d :: ds2) = .error d.name := by
  induction ds1 with
  | nil => simp [kernel.initDrivers, h2]
  | cons d' ds ih =>
    have hok : d'.initResult = .ok () := h1 d' (List.mem_cons_self d' ds)
    simp only [List.cons_append, kernel.initDrivers, hok]
    exact ih fun x hx => h1 x (List.mem_cons_of_mem d' hx)

/-- Claim C6: if a driver in the registry fails init() and every driver
before it succeeds, the boot orchestrator halts reporting that driver's
name, and the observable GPIO trace is empty: the pin-mux of
BoardPostInit never runs and the main loop is never entered. -/
theorem kernel_init_driver_failure_halts (g : bsp.GpioRegisterBlock)
    (ds1 ds2 : List kernel.DriverSpec) (d : kernel.DriverSpec)
    (e : kernel.KernelError)
    (h1 : ∀ d' ∈ ds1, d'.initResult = .ok ())
    (h2 : d.initResult = .error e) :
    kernel.init g (ds1 ++ d :: ds2) = (.halted d.name, []) := by
  unfold kernel.init
  rw [initDrivers_first_failure ds1 ds2 d e h1 h2]

/-- Witness for kernel_init_driver_failure_halts: the registry of the
source, [GPIO, PL011Uart], with a failing UART init. -/
theorem kernel_init_driver_failure_halts_witness :
    kernel.init ⟨0, 0, 0⟩
      [⟨"GPIO", .ok ()⟩, ⟨"PL011Uart", .error .peripheral⟩]
      = (.halted "PL011Uart", []) :=
  kernel_init_driver_failure_halts ⟨0, 0, 0⟩ [⟨"GPIO", .ok ()⟩] []
    ⟨"PL011Uart", .error .peripheral⟩ .peripheral
    (fun d' hd' => by
      obtain rfl := List.mem_singleton.mp hd'
      rfl)
    rfl

/-- oneByteReader obeys the Read contract. -/
lemma oneByteReader_wb : kernel.io.oneByteReader.WellBehaved := by
  intro s n bs s' h
  simp only [kernel.io.oneByteReader, Prod.mk.injEq, Except.ok.injEq] at h
  rw [← h.1]
  simp

/-- One Take::read call conserves the byte budget: the bytes produced plus
the remaining limit equal the previous limit. -/
lemma Take_read_budget_step {σ ε : Type} (r : kernel.io.Reader σ ε)
    (hwb : r.WellBehaved) (t : kernel.io.Take σ) (b : Nat) :
    (match (kernel.io.Take.read r t b).1 with
      | .ok l => l.length
      | .error _ => 0) + (kernel.io.Take.read r t b).2.limit = t.limit := by
  unfold kernel.io.Take.read
  by_cases ht : t.limit = 0
  · simp [ht]
  · rcases hr : r.read t.inner (min b t.limit) with ⟨res, s'⟩
    cases res with
    | ok bs =>
      have hlen := hwb _ _ _ _ hr
      simp only [ht, if_false, hr]
      omega
    | error e =>
      simp only [ht, if_false, hr]
      simp

/-- Budget conservation over any sequence of Take::read calls. -/
lemma runTake_budget {σ ε : Type} (r : kernel.io.Reader σ ε)
    (hwb : r.WellBehaved) (bufs : List Nat) :
    ∀ t : kernel.io.Take σ,
      (kernel.io.runTake r t bufs).1 + (kernel.io.runTake r t bufs).2.limit
        = t.limit := by
  induction bufs with
  | nil => intro t; simp [kernel.io.runTake]
  | cons b bs ih =>
    intro t
    have hstep := Take_read_budget_step r hwb t b
    have hrest := ih (kernel.io.Take.read r t b).2
    simp only [kernel.io.runTake]
    omega

/-- With the budget at 0, Take::read returns 0 bytes at once, leaving the
state untouched; the right-hand side does not mention the inner reader. -/
lemma Take_read_exhausted {σ ε : Type} (r : kernel.io.Reader σ ε) (s : σ)
    (n : Nat) : kernel.io.Take.read r ⟨s, 0⟩ n = (.ok [], ⟨s, 0⟩) := by
  simp [kernel.io.Take.read]

/-- With the budget at 0, any sequence of Take::read calls produces 0 bytes
and never changes the state. -/
lemma runTake_exhausted {σ ε : Type} (r : kernel.io.Reader σ ε)
    (bufs : List Nat) : ∀ s : σ,
      kernel.io.runTake r ⟨s, 0⟩ bufs = (0, ⟨s, 0⟩) := by
  induction bufs with
  | nil => intro s; simp [kernel.io.runTake]
  | cons b bs ih =>
    intro s
    simp only [kernel.io.runTake, Take_read_exhausted, ih s]
    rfl

/-- Claim C1: for every well-behaved inner reader and every sequence of
Take::read calls, the cumulative bytes produced plus the remaining budget
equal the constructed limit (so the total never exceeds the limit); each
successful read decrements the budget by exactly the bytes produced; and
once the budget is 0 every further read returns 0 bytes without touching
the inner reader (the result does not depend on it), forever. -/
theorem take_read_budget_spec {σ ε : Type} (r : kernel.io.Reader σ ε)
    (hwb : r.WellBehaved) :
    (∀ (inner : σ) (limit : Nat) (bufs : List Nat),
      (kernel.io.runTake r (kernel.io.Take.new inner limit) bufs).1
        + (kernel.io.runTake r (kernel.io.Take.new inner limit) bufs).2.limit
        = limit) ∧
    (∀ (inner : σ) (limit : Nat) (bufs : List Nat),
      (kernel.io.runTake r (kernel.io.Take.new inner limit) bufs).1 ≤ limit) ∧
    (∀ (t t' : kernel.io.Take σ) (b : Nat) (bs : List Nat),
      kernel.io.Take.read r t b = (.ok bs, t') →
        t'.limit + bs.length = t.limit) ∧
    (∀ (s : σ) (n : Nat),
      kernel.io.Take.read r ⟨s, 0⟩ n = (.ok [], ⟨s, 0⟩)) ∧
    (∀ (s : σ) (bufs : List Nat),
      kernel.io.runTake r ⟨s, 0⟩ bufs = (0, ⟨s, 0⟩)) := by
  refine ⟨?_, ?_, ?_, ?_, ?_⟩
  · intro inner limit bufs
    exact runTake_budget r hwb bufs (kernel.io.Take.new inner limit)
  · intro inner limit bufs
    have hb := runTake_budget r hwb bufs (kernel.io.Take.new inner limit)
    have hl : (kernel.io.Take.new inner limit).limit = limit := rfl
    omega
  · intro t t' b bs hread
    have hstep := Take_read_budget_step r hwb t b
    rw [hread] at hstep
    simp at hstep
    omega
  · exact Take_read_exhausted r
  · intro s bufs
    exact runTake_exhausted r bufs s

/-- Witness for take_read_budget_spec: the one-byte reader under a limit of
2 over three reads produces 2 bytes total and ends with budget 0. -/
theorem take_read_budget_spec_witness :
    (kernel.io.runTake kernel.io.oneByteReader
        (kernel.io.Take.new () 2) [5, 5, 5]).1
      + (kernel.io.runTake kernel.io.oneByteReader
        (kernel.io.Take.new () 2) [5, 5, 5]).2.limit = 2 :=
  (take_read_budget_spec kernel.io.oneByteReader oneByteReader_wb).1 () 2 [5, 5, 5]

open kernel.io in
/-- When done_first is set, Chain::read is exactly a read of the second
source: the first reader is not consulted, its state is untouched and
done_first stays set. -/
lemma Chain_read_done {σ₁ σ₂ ε₁ ε₂ ε : Type} (r1 : Reader σ₁ ε₁)
    (r2 : Reader σ₂ ε₂) (f1 : ε₁ → ε) (f2 : ε₂ → ε) (c : Chain σ₁ σ₂)
    (n : Nat) (hc : c.done_first = true) :
    Chain.read r1 r2 f1 f2 c n
      = ((r2.read c.second n).1.mapError f2,
         ⟨c.first, (r2.read c.second n).2, true⟩) := by
  simp [kernel.io.Chain.read, hc]

open kernel.io in
/-- Claim C2: Chain returns bytes only from first until first reports 0:
(a) with done_first set, a call is exactly a read of second with first's
state untouched; (b) hence the call result does not depend on the first
reader at all; (c) with done_first unset and first producing bytes, the
call returns exactly those bytes and second's state is untouched; (d) once
done_first is set it stays set across any further sequence of calls and
first's state is never changed again. -/
theorem chain_read_discipline {σ₁ σ₂ ε₁ ε₂ ε : Type}
    (r1 r1' : Reader σ₁ ε₁) (r2 : Reader σ₂ ε₂) (f1 : ε₁ → ε) (f2 : ε₂ → ε) :
    (∀ (c : Chain σ₁ σ₂) (n : Nat), c.done_first = true →
      Chain.read r1 r2 f1 f2 c n
        = ((r2.read c.second n).1.mapError f2,
           ⟨c.first, (r2.read c.second n).2, true⟩)) ∧
    (∀ (c : Chain σ₁ σ₂) (n : Nat), c.done_first = true →
      Chain.read r1 r2 f1 f2 c n = Chain.read r1' r2 f1 f2 c n) ∧
    (∀ (c : Chain σ₁ σ₂) (n : Nat) (bs : List Nat) (s1' : σ₁),
      c.done_first = false → r1.read c.first n = (.ok bs, s1') → bs ≠ [] →
      Chain.read r1 r2 f1 f2 c n = (.ok bs, ⟨s1', c.second, false⟩)) ∧
    (∀ (c : Chain σ₁ σ₂) (bufs : List Nat), c.done_first = true →
      (runChain r1 r2 f1 f2 c bufs).done_first = true ∧
      (runChain r1 r2 f1 f2 c bufs).first = c.first) := by
  refine ⟨fun c n hc => Chain_read_done r1 r2 f1 f2 c n hc, ?_, ?_, ?_⟩
  · intro c n hc
    rw [Chain_read_done r1 r2 f1 f2 c n hc, Chain_read_done r1' r2 f1 f2 c n hc]
  · intro c n bs s1' hc hr hbs
    cases bs with
    | nil => exact absurd rfl hbs
    | cons b rest =>
      simp [kernel.io.Chain.read, hc, hr]
  · intro c bufs
    induction bufs generalizing c with
    | nil => intro hc; exact ⟨hc, rfl⟩
    | cons b bs ih =>
      intro hc
      have hstep := Chain_read_done r1 r2 f1 f2 c b hc
      simp only [kernel.io.runChain, hstep]
      exact ih _ rfl

open kernel.io in
/-- Witness for chain_read_discipline: with done_first set, a call on the
one-byte reader pair is a read of the second source. -/
theorem chain_read_discipline_witness :
    Chain.read oneByteReader oneByteReader id id ⟨(), (), true⟩ 3
      = ((oneByteReader.read () 3).1.mapError id,
         ⟨(), (oneByteReader.read () 3).2, true⟩) :=
  (chain_read_discipline oneByteReader emptyReader oneByteReader id id).1
    ⟨(), (), true⟩ 3 rfl

open kernel.io in
/-- Claim C10: on the call where first returns 0 for the first time
(done_first still false), Chain::read reads from second within that same
call (the result is exactly second's read, with done_first set), and in
particular the call returns 0 bytes only when second itself returns 0. -/
theorem chain_read_switchover {σ₁ σ₂ ε₁ ε₂ ε : Type}
    (r1 : Reader σ₁ ε₁) (r2 : Reader σ₂ ε₂) (f1 : ε₁ → ε) (f2 : ε₂ → ε)
    (c : Chain σ₁ σ₂) (n : Nat) (s1' : σ₁)
    (hc : c.done_first = false) (hr : r1.read c.first n = (.ok [], s1')) :
    Chain.read r1 r2 f1 f2 c n
      = ((r2.read c.second n).1.mapError f2,
         ⟨s1', (r2.read c.second n).2, true⟩) ∧
    ((Chain.read r1 r2 f1 f2 c n).1 = .ok ([] : List Nat) →
      (r2.read c.second n).1 = .ok []) := by
  have heq : Chain.read r1 r2 f1 f2 c n
      = ((r2.read c.second n).1.mapError f2,
         ⟨s1', (r2.read c.second n).2, true⟩) := by
    simp [kernel.io.Chain.read, hc, hr]
  refine ⟨heq, ?_⟩
  intro hz
  rw [heq] at hz
  rcases h2 : (r2.read c.second n).1 with e | bs
  · rw [h2] at hz
    simp [Except.mapError] at hz
  · rw [h2] at hz
    simp [Except.mapError] at hz
    rw [hz]

open kernel.io in
/-- Witness for chain_read_switchover: a first source that is immediately
exhausted hands the same call over to the second source. -/
theorem chain_read_switchover_witness :
    Chain.read emptyReader oneByteReader id id ⟨(), (), false⟩ 3
      = ((oneByteReader.read () 3).1.mapError id,
         ⟨(), (oneByteReader.read () 3).2, true⟩) :=
  (chain_read_switchover emptyReader oneByteReader id id
    ⟨(), (), false⟩ 3 () rfl rfl).1


/-- emptyReader obeys the Read contract. -/
lemma emptyReader_wb : kernel.io.emptyReader.WellBehaved := by
  intro s n bs s' h
  simp only [kernel.io.emptyReader, Prod.mk.injEq, Except.ok.injEq] at h
  rw [← h.1]
  simp

open kernel.io in
/-- With a well-behaved reader, an Ok result of read_exact carries exactly
remaining bytes: the buffer is filled completely (fuel-indexed induction
following the recursion of read_exact). -/
lemma read_exact_ok_length_aux {σ ε E : Type} (r : Reader σ ε)
    (hwb : r.WellBehaved) (fE : ε → E) (eof : E) (fuel : Nat) :
    ∀ remaining, remaining ≤ fuel → ∀ (s : σ) (bs : List Nat) (sf : σ),
      read_exact r fE eof s remaining = .ok (bs, sf) →
      bs.length = remaining := by
  induction fuel with
  | zero =>
    intro remaining hrem s bs sf h
    interval_cases remaining
    rw [kernel.io.read_exact] at h
    simp at h
    simp [h.1]
  | succ fuel ih =>
    intro remaining hrem s bs sf h
    by_cases h0 : remaining = 0
    · subst h0
      rw [kernel.io.read_exact] at h
      simp at h
      simp [h.1]
    · rw [kernel.io.read_exact, dif_neg h0] at h
      rcases hr : r.read s remaining with ⟨res, s'⟩
      rw [hr] at h
      cases res with
      | error e => simp at h
      | ok bs0 =>
        by_cases hb0 : bs0.length = 0
        · simp [hb0] at h
        · simp only [dif_neg hb0] at h
          rcases hrec : read_exact r fE eof s' (remaining - bs0.length)
            with e2 | ⟨rest, sf'⟩
          · rw [hrec] at h
            simp at h
          · rw [hrec] at h
            simp only [Except.ok.injEq, Prod.mk.injEq] at h
            have hlen : bs0.length ≤ remaining := hwb _ _ _ _ hr
            have hrest : rest.length = remaining - bs0.length :=
              ih (remaining - bs0.length) (by omega) s' rest sf' hrec
            rw [← h.1]
            simp [hrest]
            omega

open kernel.io in
/-- The moment a read reports 0 bytes with the buffer not yet full,
read_exact fails with the converted EndOfFile. -/
lemma read_exact_zero_eof {σ ε E : Type} (r : Reader σ ε) (fE : ε → E)
    (eof : E) (remaining : Nat) (s s' : σ) (h0 : remaining ≠ 0)
    (hr : r.read s remaining = (.ok [], s')) :
    read_exact r fE eof s remaining = .error eof := by
  rw [kernel.io.read_exact, dif_neg h0, hr]
  simp

open kernel.io in
/-- On success, the chunks write_all hands to the underlying writer
concatenate to exactly the input buffer (observed through logWriter;
fuel-indexed induction following the recursion of write_all). -/
lemma write_all_log_aux {σ ε E : Type} (w : kernel.io.Writer σ ε) (fE : ε → E)
    (eof : E) (fuel : Nat) :
    ∀ (buf : List Nat), buf.length ≤ fuel →
      ∀ (s : σ) (log : List (List Nat)) (sf : σ) (logf : List (List Nat)),
        write_all (logWriter w) fE eof (s, log) buf = .ok (sf, logf) →
        ∃ L, logf = log ++ L ∧ L.flatten = buf := by
  induction fuel with
  | zero =>
    intro buf hlen s log sf logf h
    have hb : buf = [] := List.length_eq_zero.mp (by omega)
    subst hb
    rw [kernel.io.write_all] at h
    simp at h
    exact ⟨[], by simp [← h.2], rfl⟩
  | succ fuel ih =>
    intro buf hlen s log sf logf h
    by_cases hb : buf.length = 0
    · have hb' : buf = [] := List.length_eq_zero.mp hb
      subst hb'
      rw [kernel.io.write_all] at h
      simp at h
      exact ⟨[], by simp [← h.2], rfl⟩
    · rw [kernel.io.write_all, dif_neg hb] at h
      rcases hw : w.write s buf with ⟨res, s'⟩
      have hlw : (logWriter w).write (s, log) buf
          = ((match w.write s buf with
              | (.ok n, s2) => ((.ok n : Except ε Nat), (s2, log ++ [buf.take n]))
              | (.error e, s2) => (.error e, (s2, log)))) := rfl
      rw [hlw, hw] at h
      cases res with
      | error e => simp at h
      | ok n =>
        by_cases hn : n = 0
        · simp [hn] at h
        · simp only [dif_neg hn] at h
          have hdroplen : (buf.drop n).length ≤ fuel := by
            simp
            omega
          obtain ⟨L', hL1, hL2⟩ :=
            ih (buf.drop n) hdroplen s' (log ++ [buf.take n]) sf logf h
          refine ⟨buf.take n :: L', ?_, ?_⟩
          · rw [hL1]
            simp
          · rw [List.flatten_cons, hL2]
            exact List.take_append_drop n buf

open kernel.io in
/-- The moment a write reports 0 progress with bytes still to drain,
write_all fails with the converted EndOfFile. -/
lemma write_all_zero_eof {σ ε E : Type} (w : kernel.io.Writer σ ε) (fE : ε → E)
    (eof : E) (buf : List Nat) (s s' : σ) (hb : buf ≠ [])
    (hw : w.write s buf = (.ok 0, s')) :
    write_all w fE eof s buf = .error eof := by
  have hl : buf.length ≠ 0 := by simpa using hb
  rw [kernel.io.write_all, dif_neg hl, hw]
  simp

open kernel.io in
/-- Claim C3: read_exact either fills the buffer completely (an Ok result
carries exactly remaining bytes) or fails with the converted EndOfFile the
moment a read returns 0 before the buffer is full; symmetrically,
write_all either hands the underlying writer chunks that concatenate to
exactly the whole buffer (observed through the logWriter instrumentation)
or fails with the converted EndOfFile at the first zero-progress write.
There is no partial success reported as success. -/
theorem read_exact_write_all_all_or_nothing {σ₁ σ₂ ε₁ ε₂ E₁ E₂ : Type}
    (r : Reader σ₁ ε₁) (hwb : r.WellBehaved) (w : kernel.io.Writer σ₂ ε₂)
    (fE1 : ε₁ → E₁) (eof1 : E₁) (fE2 : ε₂ → E₂) (eof2 : E₂) :
    (∀ (remaining : Nat) (s : σ₁) (bs : List Nat) (sf : σ₁),
      read_exact r fE1 eof1 s remaining = .ok (bs, sf) →
      bs.length = remaining) ∧
    (∀ (remaining : Nat) (s s' : σ₁), remaining ≠ 0 →
      r.read s remaining = (.ok [], s') →
      read_exact r fE1 eof1 s remaining = .error eof1) ∧
    (∀ (buf : List Nat) (s : σ₂) (log : List (List Nat)) (sf : σ₂)
        (logf : List (List Nat)),
      write_all (logWriter w) fE2 eof2 (s, log) buf = .ok (sf, logf) →
      ∃ L, logf = log ++ L ∧ L.flatten = buf) ∧
    (∀ (buf : List Nat) (s s' : σ₂), buf ≠ [] →
      w.write s buf = (.ok 0, s') →
      write_all w fE2 eof2 s buf = .error eof2) := by
  refine ⟨?_, ?_, ?_, ?_⟩
  · intro remaining s bs sf h
    exact read_exact_ok_length_aux r hwb fE1 eof1 remaining remaining
      le_rfl s bs sf h
  · intro remaining s s' h0 hr
    exact read_exact_zero_eof r fE1 eof1 remaining s s' h0 hr
  · intro buf s log sf logf h
    exact write_all_log_aux w fE2 eof2 buf.length buf le_rfl s log sf logf h
  · intro buf s s' hb hw
    exact write_all_zero_eof w fE2 eof2 buf s s' hb hw

open kernel.io in
/-- Witness for read_exact_write_all_all_or_nothing: an exhausted source
makes read_exact fail with EndOfFile, and a stalled sink makes write_all
fail with EndOfFile. -/
theorem read_exact_write_all_all_or_nothing_witness :
    read_exact emptyReader id () () 1 = .error () ∧
    write_all stuckWriter id () () [1] = .error () :=
  ⟨(read_exact_write_all_all_or_nothing emptyReader emptyReader_wb
      stuckWriter id () id ()).2.1 1 () () (by decide) rfl,
   (read_exact_write_all_all_or_nothing emptyReader emptyReader_wb
      stuckWriter id () id ()).2.2.2 [1] () () (by decide) rfl⟩

open kernel.io in
/-- fmtWrite processes a concatenation of fragment lists by running the
first list and, if no fmt::Error occurred, continuing with the second. -/
lemma fmtWrite_append {σ ε E : Type} (w : kernel.io.Writer σ ε) (fE : ε → E)
    (eof : E) (fs1 fs2 : List (List Nat)) :
    ∀ a : Adaptor σ E,
      fmtWrite w fE eof a (fs1 ++ fs2)
        = match fmtWrite w fE eof a fs1 with
          | (a', true) => fmtWrite w fE eof a' fs2
          | (a', false) => (a', false) := by
  induction fs1 with
  | nil => intro a; rfl
  | cons f fs ih =>
    intro a
    simp only [List.cons_append, kernel.io.fmtWrite]
    rcases Adaptor.write_str w fE eof a f with ⟨a', b⟩
    cases b
    · rfl
    · exact ih a'

open kernel.io in
/-- Claim C8: when the formatting process produces fragments fs1 ++ f :: fs2,
every write_all on fs1 succeeds and the write_all on f fails with the I/O
error e, write_fmt returns that captured error e — not the generic
formatting-failure signal. -/
theorem write_fmt_resurfaces_io_error {σ ε E : Type}
    (w : kernel.io.Writer σ ε) (fE : ε → E) (eof : E) (s : σ)
    (fs1 fs2 : List (List Nat)) (f : List Nat) (a : Adaptor σ E) (e : E)
    (h1 : fmtWrite w fE eof ⟨s, .ok ()⟩ fs1 = (a, true))
    (h2 : write_all w fE eof a.inner f = .error e) :
    write_fmt w fE eof s (fs1 ++ f :: fs2) = .error e := by
  have hstep : Adaptor.write_str w fE eof a f
      = ({ a with result := .error e }, false) := by
    unfold kernel.io.Adaptor.write_str
    rw [h2]
  unfold kernel.io.write_fmt
  rw [fmtWrite_append w fE eof fs1 (f :: fs2) ⟨s, .ok ()⟩, h1]
  simp only [kernel.io.fmtWrite, hstep]

open kernel.io in
/-- Witness for write_fmt_resurfaces_io_error: a failing sink's I/O error is
returned by write_fmt on a one-fragment format. -/
theorem write_fmt_resurfaces_io_error_witness :
    write_fmt failWriter id () () [[1]] = .error () :=
  write_fmt_resurfaces_io_error failWriter id () () [] [] [1] ⟨(), .ok ()⟩ ()
    rfl
    (by rw [kernel.io.write_all]
        simp [kernel.io.failWriter])
